import Mathlib

/-!
Verification of `examples/problems/stokes.py` (the Stokes problem
specification of the PINA repository).

The file under `src/` is a declarative problem description: output field
names, a rectangular spatial domain, five residual functions
(`momentum`, `continuity`, `inlet`, `outlet`, `wall`) and a mapping of
named regions to the residuals enforced there.  The supporting library
pieces (`Span`, `Condition`, `LabelTensor.extract` and the differential
operators `nabla`, `grad`, `div` of `pina.operators`) are part of the
same repository but their sources are not provided; they are modelled
from the specification below, each with a doc comment saying so.

The network output handed to a residual function is modelled as a
symbolic expression in the two input coordinates: this is the shallow
counterpart of a traced autograd graph, on which the external
automatic-differentiation engine computes exact derivatives of the
composite function.  All arithmetic is over `ℚ`, so every definition is
executable and every concrete evaluation is decidable.
-/

namespace StokesSpec

/-- A symbolic expression in the two spatial coordinates `x` and `y`,
modelling the computation graph of a network output component on which
the automatic-differentiation engine operates. -/
inductive Expr where
  | x : Expr
  | y : Expr
  | const : ℚ → Expr
  | add : Expr → Expr → Expr
  | sub : Expr → Expr → Expr
  | mul : Expr → Expr → Expr
  | neg : Expr → Expr
  deriving DecidableEq, Repr

/-- Evaluate an expression at the point with coordinates `a` (for `x`)
and `b` (for `y`). -/
def Expr.eval : Expr → ℚ → ℚ → ℚ
  | .x, a, _ => a
  | .y, _, b => b
  | .const c, _, _ => c
  | .add e₁ e₂, a, b => e₁.eval a b + e₂.eval a b
  | .sub e₁ e₂, a, b => e₁.eval a b - e₂.eval a b
  | .mul e₁ e₂, a, b => e₁.eval a b * e₂.eval a b
  | .neg e, a, b => -(e.eval a b)

/-- Modelled from the spec: the external automatic-differentiation
engine (not under `src/`) computes the exact partial derivative of the
composite network expression with respect to the first coordinate. -/
def Expr.dx : Expr → Expr
  | .x => .const 1
  | .y => .const 0
  | .const _ => .const 0
  | .add e₁ e₂ => .add e₁.dx e₂.dx
  | .sub e₁ e₂ => .sub e₁.dx e₂.dx
  | .mul e₁ e₂ => .add (.mul e₁.dx e₂) (.mul e₁ e₂.dx)
  | .neg e => .neg e.dx

/-- Modelled from the spec: the external automatic-differentiation
engine (not under `src/`) computes the exact partial derivative of the
composite network expression with respect to the second coordinate. -/
def Expr.dy : Expr → Expr
  | .x => .const 0
  | .y => .const 1
  | .const _ => .const 0
  | .add e₁ e₂ => .add e₁.dy e₂.dy
  | .sub e₁ e₂ => .sub e₁.dy e₂.dy
  | .mul e₁ e₂ => .add (.mul e₁.dy e₂) (.mul e₁ e₂.dy)
  | .neg e => .neg e.dy

/-- An input point: the two spatial coordinates handed to a residual
function as `input_`. -/
abbrev Point := ℚ × ℚ

/-- Evaluate an expression at an input point. -/
def Expr.evalP (e : Expr) (p : Point) : ℚ := e.eval p.1 p.2

/-- The network output at a point: one symbolic component per declared
output variable (`ux`, `uy`, `p`), modelling the labelled output tensor
`output_`. -/
structure NetOutput where
  ux : Expr
  uy : Expr
  p : Expr
  deriving DecidableEq, Repr

/-- Modelled from the spec: `LabelTensor.extract` (not under `src/`)
selects the output columns carrying the requested labels, in the order
the labels are listed.  It is only ever applied to declared labels; an
unknown label yields the zero expression. -/
def NetOutput.extract (o : NetOutput) (labels : List String) : List Expr :=
  labels.map fun l =>
    match l with
    | "ux" => o.ux
    | "uy" => o.uy
    | "p" => o.p
    | _ => Expr.const 0

/-- Modelled from the spec: `nabla` of `pina.operators` (not under
`src/`) is the Laplacian operator; on a single scalar component it
returns the sum of the two second partial derivatives, evaluated at the
input point. -/
def nabla (es : List Expr) (input_ : Point) : List ℚ :=
  es.map fun e => (e.dx.dx).evalP input_ + (e.dy.dy).evalP input_

/-- Modelled from the spec: `grad` of `pina.operators` (not under
`src/`) returns the gradient with respect to the input coordinates; for
a scalar component it is the pair of first partial derivatives,
evaluated at the input point. -/
def grad (es : List Expr) (input_ : Point) : List ℚ :=
  es.flatMap fun e => [e.dx.evalP input_, e.dy.evalP input_]

/-- Modelled from the spec: `div` of `pina.operators` (not under
`src/`) returns the scalar divergence of a two-component vector field
with respect to the two input coordinates, evaluated at the input
point. -/
def div (es : List Expr) (input_ : Point) : List ℚ :=
  match es with
  | [u, v] => [u.dx.evalP input_ + v.dy.evalP input_]
  | _ => []

/-- `torch.hstack`: horizontal concatenation of the column lists. -/
def hstack (cols : List (List ℚ)) : List ℚ := cols.flatMap id

/-- Pointwise negation of a residual vector (the prefix `-` on a
tensor). -/
def vneg (v : List ℚ) : List ℚ := v.map Neg.neg

/-- Pointwise addition of two residual vectors (tensor `+`). -/
def vadd (v w : List ℚ) : List ℚ := List.zipWith (· + ·) v w

/-- `Stokes.output_variables`. -/
def output_variables : List String := ["ux", "uy", "p"]

/-- `Stokes.momentum`: `- nabla_ + grad(p)` where `nabla_` stacks the
Laplacian of `ux` (labelled to axis `x`) and of `uy` (labelled to axis
`y`); the labels coincide with the positional order of the stack. -/
def momentum (input_ : Point) (output_ : NetOutput) : List ℚ :=
  let nabla_ := hstack [nabla (output_.extract ["ux"]) input_,
    nabla (output_.extract ["uy"]) input_]
  vadd (vneg nabla_) (grad (output_.extract ["p"]) input_)

/-- `Stokes.continuity`: divergence of the extracted velocity field. -/
def continuity (input_ : Point) (output_ : NetOutput) : List ℚ :=
  div (output_.extract ["ux", "uy"]) input_

/-- `Stokes.inlet`: `ux` minus the parabolic profile `2 * (1 - y ** 2)`
built from the `y` coordinate of the input. -/
def inlet (input_ : Point) (output_ : NetOutput) : List ℚ :=
  let value : ℚ := 2 * (1 - input_.2 ^ 2)
  (output_.extract ["ux"]).map fun e => e.evalP input_ - value

/-- `Stokes.outlet`: the extracted pressure minus the value `0.0`. -/
def outlet (input_ : Point) (output_ : NetOutput) : List ℚ :=
  let value : ℚ := 0
  (output_.extract ["p"]).map fun e => e.evalP input_ - value

/-- `Stokes.wall`: the extracted velocity components minus the value
`0.0`. -/
def wall (input_ : Point) (output_ : NetOutput) : List ℚ :=
  let value : ℚ := 0
  (output_.extract ["ux", "uy"]).map fun e => e.evalP input_ - value

/-- Modelled from the spec: one axis of a `Span` (not under `src/`) is
either an interval `[lo, hi]` or a single fixed value. -/
inductive Range where
  | interval : ℚ → ℚ → Range
  | fixed : ℚ → Range
  deriving DecidableEq, Repr

/-- Membership of a coordinate in one axis range. -/
def Range.mem : Range → ℚ → Prop
  | .interval lo hi, v => lo ≤ v ∧ v ≤ hi
  | .fixed c, v => v = c

instance : ∀ (r : Range) (v : ℚ), Decidable (r.mem v)
  | .interval _ _, _ => instDecidableAnd
  | .fixed _, _ => inferInstanceAs (Decidable (_ = _))

/-- Modelled from the spec: a `Span` (not under `src/`) is an
axis-aligned region described by an independent range per coordinate. -/
structure Span where
  sx : Range
  sy : Range
  deriving DecidableEq, Repr

/-- Membership of a point in a span. -/
def Span.mem (s : Span) (pt : Point) : Prop := s.sx.mem pt.1 ∧ s.sy.mem pt.2

instance (s : Span) (pt : Point) : Decidable (s.mem pt) := instDecidableAnd

/-- `Stokes.spatial_domain`: `x ∈ [-2, 2]`, `y ∈ [-1, 1]`. -/
def spatial_domain : Span := ⟨.interval (-2) 2, .interval (-1) 1⟩

/-- The residuals attached to a condition: the source passes either a
single function or a list of functions as the `function` argument. -/
inductive CondFun where
  | one : (Point → NetOutput → List ℚ) → CondFun
  | many : List (Point → NetOutput → List ℚ) → CondFun

/-- Modelled from the spec: a `Condition` (not under `src/`) pairs a
region of the domain with the residual function(s) enforced there. -/
structure Condition where
  location : Span
  function : CondFun

/-- `Stokes.conditions`: the five named conditions, in source order. -/
def conditions : List (String × Condition) :=
  [("gamma_top", ⟨⟨.interval (-2) 2, .fixed 1⟩, .one wall⟩),
   ("gamma_bot", ⟨⟨.interval (-2) 2, .fixed (-1)⟩, .one wall⟩),
   ("gamma_out", ⟨⟨.fixed 2, .interval (-1) 1⟩, .one outlet⟩),
   ("gamma_in", ⟨⟨.fixed (-2), .interval (-1) 1⟩, .one inlet⟩),
   ("D", ⟨⟨.interval (-2) 2, .interval (-1) 1⟩, .many [momentum, continuity]⟩)]

/-- The trivial network of the golden scenario in the spec: it outputs
`ux = 2 * (1 - y ^ 2)`, `uy = 0`, `p = 0` at every point. -/
def poiseuille : NetOutput :=
  ⟨.mul (.const 2) (.sub (.const 1) (.mul .y .y)), .const 0, .const 0⟩

/-- A network output with constant velocity `1` in the `x` direction,
used to separate a residual from its negation. -/
def unitX : NetOutput := ⟨.const 1, .const 0, .const 0⟩

/-- The momentum residual written from the words of the specification:
the Laplacian of each velocity component stacked into a vector, negated,
plus the gradient of the pressure with respect to the input
coordinates. -/
def momentumSpec (input_ : Point) (output_ : NetOutput) : List ℚ :=
  [-(output_.ux.dx.dx.evalP input_ + output_.ux.dy.dy.evalP input_)
      + output_.p.dx.evalP input_,
   -(output_.uy.dx.dx.evalP input_ + output_.uy.dy.dy.evalP input_)
      + output_.p.dy.evalP input_]

/-- The divergence of the predicted velocity field at a point, written
from the words of the specification: `d(ux)/dx + d(uy)/dy`. -/
def divergence (output_ : NetOutput) (input_ : Point) : ℚ :=
  output_.ux.dx.evalP input_ + output_.uy.dy.evalP input_

/-- Every condition's region lies inside the spatial domain.  Shared
helper for the containment theorems. -/
lemma cond_region_subset_domain :
    ∀ name c, (name, c) ∈ conditions → ∀ pt, c.location.mem pt → spatial_domain.mem pt := by
  intro name c hc pt hpt
  simp only [conditions, List.mem_cons, List.not_mem_nil, or_false] at hc
  rcases hc with h | h | h | h | h <;>
    (rw [Prod.mk.injEq] at h
     obtain ⟨-, rfl⟩ := h
     simp only [Span.mem, Range.mem, spatial_domain] at hpt ⊢
     obtain ⟨h1, h2⟩ := hpt
     refine ⟨⟨?_, ?_⟩, ?_, ?_⟩ <;> linarith)

/-- Claim C1: for every input point and every network output, the
momentum residual equals the vector formed by negating the Laplacian of
each velocity component (`ux` to axis `x`, `uy` to axis `y`) and adding
the gradient of the pressure `p` with respect to the input
coordinates. -/
theorem momentum_matches_spec (input_ : Point) (output_ : NetOutput) :
    momentum input_ output_ = momentumSpec input_ output_ := by
  simp [momentum, momentumSpec, NetOutput.extract, nabla, grad, hstack, vneg, vadd]

/-- Claim C2, counterexample: for the trivial network
`ux = 2 * (1 - y ^ 2)`, `uy = 0`, `p = 0`, the momentum residual at the
interior point `(0, 0)` of region `D` is `[4, 0]`, not zero: the claim
that all five condition residuals vanish on their regions is false. -/
theorem golden_scenario_counterexample :
    Span.mem ⟨.interval (-2) 2, .interval (-1) 1⟩ (0, 0) ∧
      momentum (0, 0) poiseuille = [4, 0] ∧ ([4, 0] : List ℚ) ≠ [0, 0] := by
  refine ⟨by decide, ?_, by norm_num⟩
  norm_num [momentum, poiseuille, NetOutput.extract, nabla, grad, hstack, vneg, vadd,
    Expr.dx, Expr.dy, Expr.evalP, Expr.eval]

/-- Claim C2, amended: for the trivial network `ux = 2 * (1 - y ^ 2)`,
`uy = 0`, `p = 0`, the wall residual vanishes on `gamma_top` and
`gamma_bot`, the outlet residual vanishes on `gamma_out`, the inlet
residual vanishes on `gamma_in` and the continuity residual vanishes on
`D`; the momentum residual, however, is the constant nonzero vector
`[4, 0]` on `D`. -/
theorem golden_scenario_amended :
    (∀ a b : ℚ, Span.mem ⟨.interval (-2) 2, .fixed 1⟩ (a, b) →
      wall (a, b) poiseuille = [0, 0]) ∧
    (∀ a b : ℚ, Span.mem ⟨.interval (-2) 2, .fixed (-1)⟩ (a, b) →
      wall (a, b) poiseuille = [0, 0]) ∧
    (∀ a b : ℚ, Span.mem ⟨.fixed 2, .interval (-1) 1⟩ (a, b) →
      outlet (a, b) poiseuille = [0]) ∧
    (∀ a b : ℚ, Span.mem ⟨.fixed (-2), .interval (-1) 1⟩ (a, b) →
      inlet (a, b) poiseuille = [0]) ∧
    (∀ a b : ℚ, Span.mem ⟨.interval (-2) 2, .interval (-1) 1⟩ (a, b) →
      continuity (a, b) poiseuille = [0] ∧ momentum (a, b) poiseuille = [4, 0]) := by
  refine ⟨?_, ?_, ?_, ?_, ?_⟩ <;> intro a b h <;>
    obtain ⟨h1, h2⟩ := h
  · simp only [Range.mem] at h2
    subst h2
    norm_num [wall, poiseuille, NetOutput.extract, Expr.evalP, Expr.eval]
  · simp only [Range.mem] at h2
    subst h2
    norm_num [wall, poiseuille, NetOutput.extract, Expr.evalP, Expr.eval]
  · norm_num [outlet, poiseuille, NetOutput.extract, Expr.evalP, Expr.eval]
  · norm_num [inlet, poiseuille, NetOutput.extract, Expr.evalP, Expr.eval]
    ring
  · constructor
    · norm_num [continuity, poiseuille, NetOutput.extract, div, Expr.dx, Expr.dy,
        Expr.evalP, Expr.eval]
    · norm_num [momentum, poiseuille, NetOutput.extract, nabla, grad, hstack, vneg, vadd,
        Expr.dx, Expr.dy, Expr.evalP, Expr.eval]

/-- Witness for the amended golden scenario at concrete points of each
region. -/
theorem golden_scenario_amended_witness :
    wall (0, 1) poiseuille = [0, 0] ∧ inlet ((-2), 0) poiseuille = [0] ∧
      continuity (0, 0) poiseuille = [0] ∧ momentum (0, 0) poiseuille = [4, 0] :=
  ⟨golden_scenario_amended.1 0 1 (by decide),
   (golden_scenario_amended.2.2.2.1 (-2) 0 (by decide)),
   (golden_scenario_amended.2.2.2.2 0 0 (by decide)).1,
   (golden_scenario_amended.2.2.2.2 0 0 (by decide)).2⟩

/-- Claim C3, counterexample: at the wall point `(0, 1)` of `gamma_top`
and the network output with `ux = 1`, `uy = 0`, the wall residual is
`[1, 0]`, the velocity output itself, while the negation of the velocity
output is `[-1, 0]`: the claim that `wall` returns the negation of the
velocity output is false. -/
theorem wall_not_negation :
    Span.mem ⟨.interval (-2) 2, .fixed 1⟩ (0, 1) ∧
      wall (0, 1) unitX = [1, 0] ∧
      vneg [unitX.ux.evalP (0, 1), unitX.uy.evalP (0, 1)] = [-1, 0] ∧
      ([1, 0] : List ℚ) ≠ [-1, 0] := by
  refine ⟨by decide, ?_, by norm_num [vneg, unitX, Expr.evalP, Expr.eval], by norm_num⟩
  norm_num [wall, NetOutput.extract, unitX, Expr.evalP, Expr.eval]

/-- Claim C3, amended: at every point of the top or bottom wall and for
every network output, the wall residual equals the network's velocity
output itself (the velocity minus the value `0`), and it is zero exactly
when the velocity output is zero. -/
theorem wall_is_velocity (a b : ℚ) (output_ : NetOutput)
    (_h : Span.mem ⟨.interval (-2) 2, .fixed 1⟩ (a, b) ∨
      Span.mem ⟨.interval (-2) 2, .fixed (-1)⟩ (a, b)) :
    wall (a, b) output_ = [output_.ux.evalP (a, b), output_.uy.evalP (a, b)] ∧
      (wall (a, b) output_ = [0, 0] ↔
        output_.ux.evalP (a, b) = 0 ∧ output_.uy.evalP (a, b) = 0) := by
  constructor
  · simp [wall, NetOutput.extract]
  · simp [wall, NetOutput.extract]

/-- Witness for the amended wall claim at the point `(0, 1)` of
`gamma_top`. -/
theorem wall_is_velocity_witness :
    wall (0, 1) unitX = [unitX.ux.evalP (0, 1), unitX.uy.evalP (0, 1)] :=
  (wall_is_velocity 0 1 unitX (Or.inl (by decide))).1

/-- Claim C4: for every input point `(a, b)` and network output, the
inlet residual equals `ux - 2 * (1 - b ^ 2)`; on the inlet region
(`x = -2`, `y` in `[-1, 1]`) it is zero iff the predicted `ux` equals
`2 * (1 - b ^ 2)` exactly. -/
theorem inlet_profile (a b : ℚ) (output_ : NetOutput) :
    inlet (a, b) output_ = [output_.ux.evalP (a, b) - 2 * (1 - b ^ 2)] ∧
      (Span.mem ⟨.fixed (-2), .interval (-1) 1⟩ (a, b) →
        (inlet (a, b) output_ = [0] ↔ output_.ux.evalP (a, b) = 2 * (1 - b ^ 2))) := by
  constructor
  · simp [inlet, NetOutput.extract]
  · intro _
    simp [inlet, NetOutput.extract, sub_eq_zero]

/-- Witness for the inlet claim at the point `(-2, 0)` of `gamma_in`
with the trivial network. -/
theorem inlet_profile_witness : inlet ((-2), 0) poiseuille = [0] :=
  ((inlet_profile (-2) 0 poiseuille).2 (by decide)).mpr
    (by norm_num [poiseuille, Expr.evalP, Expr.eval])

/-- Claim C5: for every input point and network output, the continuity
residual is the scalar divergence of the velocity field with respect to
the input coordinates, and it is zero iff the predicted velocity field
is exactly divergence-free at that point. -/
theorem continuity_is_divergence (input_ : Point) (output_ : NetOutput) :
    continuity input_ output_ = [divergence output_ input_] ∧
      (continuity input_ output_ = [0] ↔ divergence output_ input_ = 0) := by
  constructor
  · simp [continuity, divergence, div, NetOutput.extract]
  · simp [continuity, divergence, div, NetOutput.extract]

/-- Claim C6: for every input point and network output, the outlet
residual equals the pressure output minus `0`; on the outlet region
(`x = 2`, `y` in `[-1, 1]`) it is zero iff the predicted pressure is
exactly zero. -/
theorem outlet_zero_pressure (a b : ℚ) (output_ : NetOutput) :
    outlet (a, b) output_ = [output_.p.evalP (a, b) - 0] ∧
      (Span.mem ⟨.fixed 2, .interval (-1) 1⟩ (a, b) →
        (outlet (a, b) output_ = [0] ↔ output_.p.evalP (a, b) = 0)) := by
  constructor
  · simp [outlet, NetOutput.extract]
  · intro _
    simp [outlet, NetOutput.extract, sub_eq_zero]

/-- Witness for the outlet claim at the point `(2, 0)` of `gamma_out`
with the trivial network, whose pressure output is zero. -/
theorem outlet_zero_pressure_witness : outlet (2, 0) poiseuille = [0] :=
  ((outlet_zero_pressure 2 0 poiseuille).2 (by decide)).mpr
    (by norm_num [poiseuille, Expr.evalP, Expr.eval])

/-- Claim C7: every point of every condition's region lies inside the
spatial domain `x` in `[-2, 2]`, `y` in `[-1, 1]`. -/
theorem conditions_within_domain (name : String) (c : Condition)
    (hc : (name, c) ∈ conditions) (pt : Point) (hpt : c.location.mem pt) :
    spatial_domain.mem pt :=
  cond_region_subset_domain name c hc pt hpt

/-- Witness for the domain-containment claim: the point `(0, 1)` of
`gamma_top` lies in the spatial domain. -/
theorem conditions_within_domain_witness : Span.mem spatial_domain (0, 1) :=
  conditions_within_domain "gamma_top" ⟨⟨.interval (-2) 2, .fixed 1⟩, .one wall⟩
    (List.Mem.head _) (0, 1) (by decide)

/-- Claim C8: the conditions mapping has exactly the five distinct names
`gamma_top`, `gamma_bot`, `gamma_out`, `gamma_in`, `D`; each boundary
name pairs its region with exactly one residual function (`wall`,
`wall`, `outlet`, `inlet` respectively) and `D` pairs the interior
region with the two-element list `[momentum, continuity]`. -/
theorem conditions_structure :
    conditions.map Prod.fst = ["gamma_top", "gamma_bot", "gamma_out", "gamma_in", "D"] ∧
    (conditions.map Prod.fst).Nodup ∧
    List.lookup "gamma_top" conditions = some ⟨⟨.interval (-2) 2, .fixed 1⟩, .one wall⟩ ∧
    List.lookup "gamma_bot" conditions = some ⟨⟨.interval (-2) 2, .fixed (-1)⟩, .one wall⟩ ∧
    List.lookup "gamma_out" conditions = some ⟨⟨.fixed 2, .interval (-1) 1⟩, .one outlet⟩ ∧
    List.lookup "gamma_in" conditions = some ⟨⟨.fixed (-2), .interval (-1) 1⟩, .one inlet⟩ ∧
    List.lookup "D" conditions =
      some ⟨⟨.interval (-2) 2, .interval (-1) 1⟩, .many [momentum, continuity]⟩ :=
  ⟨rfl, by decide, rfl, rfl, rfl, rfl, rfl⟩

/-- Claim C9: the five residual functions are deterministic: two
evaluations on equal input points and equal network outputs give equal
results.  The embedding is a pure function of its arguments, mirroring
the source functions, which read their two arguments and mutate
nothing. -/
theorem residuals_deterministic (i i' : Point) (o o' : NetOutput)
    (hi : i = i') (ho : o = o') :
    momentum i o = momentum i' o' ∧ continuity i o = continuity i' o' ∧
      inlet i o = inlet i' o' ∧ outlet i o = outlet i' o' ∧ wall i o = wall i' o' := by
  subst hi; subst ho
  exact ⟨rfl, rfl, rfl, rfl, rfl⟩

/-- Witness for determinism at a concrete evaluation. -/
theorem residuals_deterministic_witness :
    momentum (0, 0) poiseuille = momentum (0, 0) poiseuille :=
  (residuals_deterministic (0, 0) (0, 0) poiseuille poiseuille rfl rfl).1

/-- Claim C10: the region of the interior condition `D` is exactly the
whole spatial domain, boundary included, so every point of every other
condition's region (wall, inlet, outlet) also lies in the region where
the momentum and continuity residuals are enforced. -/
theorem interior_region_is_domain (cD : Condition)
    (hD : List.lookup "D" conditions = some cD) :
    cD.location = spatial_domain ∧
      ∀ name c, (name, c) ∈ conditions → ∀ pt, c.location.mem pt → cD.location.mem pt := by
  have hc : cD = ⟨⟨.interval (-2) 2, .interval (-1) 1⟩, .many [momentum, continuity]⟩ := by
    have hl : List.lookup "D" conditions =
        some (⟨⟨.interval (-2) 2, .interval (-1) 1⟩, .many [momentum, continuity]⟩ :
          Condition) := rfl
    rw [hl] at hD
    exact (Option.some.injEq .. ▸ hD).symm
  subst hc
  exact ⟨rfl, fun name c hmem pt hpt => cond_region_subset_domain name c hmem pt hpt⟩

/-- Witness for the interior-region claim: the corner `(-2, 1)`, where
the inlet and the top wall meet, lies in the region of `D`. -/
theorem interior_region_is_domain_witness :
    Span.mem (Span.mk (.interval (-2) 2) (.interval (-1) 1)) ((-2), 1) :=
  (interior_region_is_domain ⟨⟨.interval (-2) 2, .interval (-1) 1⟩, .many [momentum, continuity]⟩
      rfl).2 "gamma_in" ⟨⟨.fixed (-2), .interval (-1) 1⟩, .one inlet⟩
    (List.Mem.tail _ (List.Mem.tail _ (List.Mem.tail _ (List.Mem.head _)))) ((-2), 1) (by decide)

end StokesSpec
